import Mathlib

/-!
# Verification of the Clio C2 log-forwarder subsystem

A shallow embedding, in Lean 4, of the parts of the Clio repository that the
spec's testable properties talk about:

* `log_exporter/parsers/cobalt_strike.py` — `CobalStrikeParser.parse_log_file`,
  `extract_date_from_path`, `create_iso_timestamp`, the beacon command regex;
* `log_exporter/parsers/base_parser.py` — `is_significant_command`,
  `should_exclude_entry`, `is_file_outdated`;
* `forwarder/core/rate_limit_queue.py` — `RateLimitQueue`;
* `log_exporter/core/forwarder.py` — `LogForwarder.load_state`,
  `LogForwarder.send_logs_to_clio`, `LogForwarder.scan_directories`.

Python `dict`s are modelled as insertion-ordered association lists, `deque`s as
lists (front = left end), wall-clock instants and float timestamps as rationals,
and code that can raise models the raising paths with `Option`/`Except`.
File-system reads are modelled by passing the observed file content
(`Option (List String)`, `none` meaning `open` raised) explicitly.
-/

namespace Clio

/-- Whitespace characters matched by Python's `\s` (ASCII range) and stripped
by `str.strip()` on ASCII text. -/
def isWsChar (c : Char) : Bool :=
  c = ' ' || c = '\t' || c = '\n' || c = '\r' || c = '\x0b' || c = '\x0c'

/-- A normalized command event, the unit of delivery
(the dict literal built in `CobalStrikeParser.parse_log_file`). -/
structure LogEvent where
  timestamp : String
  hostname : String
  username : String
  command : String
  notes : String
  filename : String
  status : String
  internal_ip : String
  external_ip : String
deriving DecidableEq, Repr

instance : BEq LogEvent := ⟨fun a b => decide (a = b)⟩

instance : LawfulBEq LogEvent where
  eq_of_beq h := of_decide_eq_true h
  rfl := decide_eq_true rfl

/-- The `--all` / `--significant` filter mode selected at startup. -/
inductive FilterMode where
  | all
  | significant
deriving DecidableEq, Repr

/-! ## Command filtering (`command_filters.py`, `base_parser.py`) -/

/-- `COMMON_INSIGNIFICANT_COMMANDS` from `command_filters.py`. -/
def COMMON_INSIGNIFICANT_COMMANDS : List String :=
  ["ls", "dir", "pwd", "cd", "cls", "clear", "help", "?", "exit", "quit",
   "history", "echo", "cat", "type", "more", "whoami", "hostname", "uptime",
   "uname", "ver", "version"]

/-- `COBALT_STRIKE_INSIGNIFICANT_COMMANDS` from `command_filters.py`. -/
def COBALT_STRIKE_INSIGNIFICANT_COMMANDS : List String :=
  ["sleep", "checkin", "mode", "jobs", "jobkill", "back", "cd", "pwd", "drives",
   "ls", "ps", "netstat", "ipconfig", "getuid", "sysinfo", "time", "screenshots",
   "getuid", "getpid", "getprivs", "ipconfig", "ifconfig", "arp", "route", "netstat", "reg query",
   "clear", "help", "info", "note", "sleep",
   "sessions", "mode dns", "mode dns-txt", "mode http", "mode smb",
   "jobs", "jobkill", "links", "connect", "unlink",
   "cd", "pwd", "ls", "drives", "mkdir", "rm"]

/-- Order-preserving de-duplication, as the `seen`-set comprehension in
`get_insignificant_commands`. -/
def dedupKeepFirst (l : List String) : List String :=
  l.foldl (fun acc x => if acc.contains x then acc else acc ++ [x]) []

/-- `get_insignificant_commands("cobalt_strike")`: common commands followed by
the Cobalt Strike specific ones, de-duplicated keeping first occurrences. -/
def insignificant_commands_cs : List String :=
  dedupKeepFirst (COMMON_INSIGNIFICANT_COMMANDS ++ COBALT_STRIKE_INSIGNIFICANT_COMMANDS)

/-- Python `str.strip()` on ASCII text: drop whitespace from both ends. -/
def pyStripL (l : List Char) : List Char :=
  ((l.dropWhile isWsChar).reverse.dropWhile isWsChar).reverse

/-- Python `str.lower()` restricted to ASCII letters. -/
def pyLowerL (l : List Char) : List Char := l.map Char.toLower

/-- `BaseLogParser.is_significant_command`: in "all" mode everything is
significant; otherwise an empty command is insignificant, and a command whose
lower-cased stripped form equals an insignificant command, or starts with one
followed by a space, is filtered out. -/
def is_significant_command (mode : FilterMode) (command : String) : Bool :=
  match mode with
  | .all => true
  | .significant =>
    if command = "" then false
    else
      let command_lower := pyStripL (pyLowerL command.toList)
      !(insignificant_commands_cs.any (fun insig =>
          command_lower = insig.toList ||
            (insig.toList ++ [' ']).isPrefixOf command_lower))

/-- `BaseLogParser.should_exclude_entry`: the entry dict always carries a
`"command"` key, and `from command_filters import should_exclude_command`
raises `ImportError` because `command_filters.py` defines no such symbol, so
the fallback branch `return False` is always taken. -/
def should_exclude_entry (_entry : LogEvent) : Bool := false

/-! ## Path helpers (`os.path`, modelled for `/`-separated paths) -/

/-- `os.path.basename` (posix): the part after the last `/` (empty for a
trailing slash or an empty path). -/
def os_basename (p : String) : String :=
  String.mk ((p.toList.reverse.takeWhile (fun c => c ≠ '/')).reverse)

/-- `os.path.dirname` (posix): the part up to the last `/`, with trailing
slashes stripped unless that would leave nothing. -/
def os_dirname (p : String) : String :=
  let pre := (p.toList.reverse.dropWhile (fun c => c ≠ '/')).reverse
  let head := (pre.reverse.dropWhile (fun c => c = '/')).reverse
  String.mk (if head.isEmpty then pre else head)

/-- Ten characters forming `\d{4}-\d{2}-\d{2}`. -/
def isDateCore : List Char → Bool
  | [a, b, c, d, '-', e, f, '-', g, h] =>
    a.isDigit && b.isDigit && c.isDigit && d.isDigit &&
    e.isDigit && f.isDigit && g.isDigit && h.isDigit
  | _ => false

/-- Python `re.match(r'^\d{4}-\d{2}-\d{2}$', s)` viewed as a predicate: the
`$` anchor also matches just before one trailing newline. -/
def isDateNameL (l : List Char) : Bool :=
  isDateCore l || (l.getLast? = some '\n' && isDateCore l.dropLast)

/-- `isDateNameL` on a string. -/
def isDateName (s : String) : Bool := isDateNameL s.toList

/-- Python `str.split(sep)` for a one-character separator, on the character
list (`"".split(sep)` is `[""]`, empty fields are kept). -/
def splitChar (sep : Char) : List Char → List (List Char)
  | [] => [[]]
  | c :: rest =>
    let r := splitChar sep rest
    if c = sep then [] :: r
    else
      match r with
      | h :: t => (c :: h) :: t
      | [] => [[c]]

/-- Python string `<`: lexicographic comparison by code point. -/
def pyStrLtL : List Char → List Char → Bool
  | [], [] => false
  | [], _ :: _ => true
  | _ :: _, [] => false
  | a :: as, b :: bs =>
    if a < b then true else if b < a then false else pyStrLtL as bs

/-- Python string `<` on strings. -/
def pyStrLt (a b : String) : Bool := pyStrLtL a.toList b.toList

/-- `BaseLogParser.is_file_outdated`: the name of the file's immediate parent
directory is compared (the truthiness of
`re.match(date) and dir_name < cutoff_str`). -/
def is_file_outdated (file_path cutoff_str : String) : Bool :=
  let dir_path := os_dirname file_path
  let dir_name := os_basename dir_path
  isDateName dir_name && pyStrLt dir_name cutoff_str

/-- `CobalStrikeParser.extract_date_from_path`: first path component matching
the date pattern, else today's date. -/
def extract_date_from_path (today : String) (file_path : String) : String :=
  match (splitChar '/' file_path.toList).find? isDateNameL with
  | some part => String.mk part
  | none => today

/-! ## Timestamp construction (`CobalStrikeParser.create_iso_timestamp`) -/

def digitVal (c : Char) : Nat := c.toNat - 48

def isLeapYear (y : Nat) : Bool :=
  y % 4 = 0 && (y % 100 ≠ 0 || y % 400 = 0)

def daysInMonth (y m : Nat) : Nat :=
  if m = 2 then (if isLeapYear y then 29 else 28)
  else if m = 4 || m = 6 || m = 9 || m = 11 then 30
  else 31

/-- Does `datetime.fromisoformat` accept a string of the exact shape
`YYYY-MM-DDTHH:MM:SS`?  Any other shape built by `create_iso_timestamp`
raises `ValueError` there. -/
def validIsoDatetime (s : String) : Bool :=
  match s.toList with
  | [y1, y2, y3, y4, '-', m1, m2, '-', d1, d2, 'T',
     h1, h2, ':', mi1, mi2, ':', s1, s2] =>
    y1.isDigit && y2.isDigit && y3.isDigit && y4.isDigit &&
    m1.isDigit && m2.isDigit && d1.isDigit && d2.isDigit &&
    h1.isDigit && h2.isDigit && mi1.isDigit && mi2.isDigit &&
    s1.isDigit && s2.isDigit &&
    (let y := ((digitVal y1 * 10 + digitVal y2) * 10 + digitVal y3) * 10 + digitVal y4
     let mo := digitVal m1 * 10 + digitVal m2
     let da := digitVal d1 * 10 + digitVal d2
     let ho := digitVal h1 * 10 + digitVal h2
     let mi := digitVal mi1 * 10 + digitVal mi2
     let se := digitVal s1 * 10 + digitVal s2
     decide (1 ≤ y) && decide (1 ≤ mo) && decide (mo ≤ 12) &&
     decide (1 ≤ da) && decide (da ≤ daysInMonth y mo) &&
     decide (ho ≤ 23) && decide (mi ≤ 59) && decide (se ≤ 59))
  | _ => false

/-- Current wall-clock values, passed explicitly where the source calls
`datetime.now()`. -/
structure ParseCtx where
  mode : FilterMode
  /-- `datetime.now().strftime("%Y-%m-%d")`, used when no date appears in the path. -/
  today : String
  /-- `datetime.now().strftime("%H:%M:%S")`, used when the in-line time has a bad shape. -/
  nowTime : String
  /-- `datetime.now().isoformat()`, used when the combined timestamp fails to parse. -/
  nowIso : String
deriving Repr

/-- `CobalStrikeParser.create_iso_timestamp`: strip fractional seconds, pad a
missing seconds field, combine with the date, validate via
`datetime.fromisoformat`, falling back to the current time on failure. -/
def create_iso_timestamp (ctx : ParseCtx) (date_str time_str : String) : String :=
  let clean_time := (splitChar '.' time_str.toList).headD []
  let time_parts := splitChar ':' clean_time
  let formatted_time :=
    if time_parts.length = 3 then clean_time
    else if time_parts.length = 2 then clean_time ++ [':', '0', '0']
    else ctx.nowTime.toList
  let timestamp := date_str.toList ++ 'T' :: formatted_time
  if validIsoDatetime (String.mk timestamp) then String.mk timestamp else ctx.nowIso

/-! ## The beacon command regex

`CobalStrikeParser.beacon_cmd_regex` is
`\[(.*?)\]\s+Beacon\s+(\d+)\s+\((.+?)@(.+?)\):\s+(.*)` applied with
`re.match` (anchored at the start of the line, free at the end).  The three
lazy groups are realised by shortest-first backtracking searches; the greedy
pieces (`\s+`, `\d+`, final `(.*)`) are deterministic because each is followed
by a token disjoint from its character class (or by nothing). -/

/-- Close the fourth group: the remaining input must start with `):`, then at
least one whitespace character, then the command group takes the rest of the
line (`.` stops at a newline). -/
def tryCloseHost (acc : List Char) : List Char → Option (String × String)
  | ')' :: ':' :: rest =>
    let ws := rest.takeWhile isWsChar
    if ws.isEmpty then none
    else some (String.mk acc.reverse,
               String.mk ((rest.drop ws.length).takeWhile (fun c => c ≠ '\n')))
  | _ => none

/-- The lazy `(.+?)` for the hostname: try to close before extending. -/
def hostGo (acc : List Char) : List Char → Option (String × String)
  | [] => none
  | c :: rest =>
    match tryCloseHost acc (c :: rest) with
    | some r => some r
    | none => if c = '\n' then none else hostGo (c :: acc) rest

/-- Entry point for `(.+?)\):\s+(.*)` — the group needs at least one character. -/
def hostStart : List Char → Option (String × String)
  | [] => none
  | c :: rest => if c = '\n' then none else hostGo [c] rest

/-- The lazy `(.+?)` for the username, closed by an `@` whose continuation
matches the hostname part. -/
def userGo (acc : List Char) : List Char → Option (String × String × String)
  | [] => none
  | c :: rest =>
    match (if c = '@' then
             (hostStart rest).map (fun r => (String.mk acc.reverse, r.1, r.2))
           else none) with
    | some r => some r
    | none => if c = '\n' then none else userGo (c :: acc) rest

/-- Entry point for `(.+?)@(.+?)\):\s+(.*)`. -/
def userStart : List Char → Option (String × String × String)
  | [] => none
  | c :: rest => if c = '\n' then none else userGo [c] rest

/-- The deterministic middle of the pattern, applied after the closing `]`:
`\s+Beacon\s+(\d+)\s+\(` followed by the username search. -/
def afterTimeGroup (cs : List Char) : Option (String × String × String × String) :=
  let ws1 := cs.takeWhile isWsChar
  if ws1.isEmpty then none
  else
    let cs1 := cs.drop ws1.length
    if ['B', 'e', 'a', 'c', 'o', 'n'].isPrefixOf cs1 then
      let cs2 := cs1.drop 6
      let ws2 := cs2.takeWhile isWsChar
      if ws2.isEmpty then none
      else
        let cs3 := cs2.drop ws2.length
        let ds := cs3.takeWhile Char.isDigit
        if ds.isEmpty then none
        else
          let cs4 := cs3.drop ds.length
          let ws3 := cs4.takeWhile isWsChar
          if ws3.isEmpty then none
          else
            match cs4.drop ws3.length with
            | '(' :: cs5 =>
              (userStart cs5).map (fun r => (String.mk ds, r.1, r.2.1, r.2.2))
            | _ => none
    else none

/-- The lazy `(.*?)` for the time group: may close immediately at a `]`. -/
def timeGo (acc : List Char) : List Char → Option (String × String × String × String × String)
  | [] => none
  | c :: rest =>
    match (if c = ']' then
             (afterTimeGroup rest).map
               (fun r => (String.mk acc.reverse, r.1, r.2.1, r.2.2.1, r.2.2.2))
           else none) with
    | some r => some r
    | none => if c = '\n' then none else timeGo (c :: acc) rest

/-- `beacon_cmd_regex.match(line)`: on success, the five captured groups
`(time, beacon_id, username, hostname, command)`. -/
def beacon_cmd_match (line : String) : Option (String × String × String × String × String) :=
  match line.toList with
  | '[' :: rest => timeGo [] rest
  | _ => none

/-! ## `CobalStrikeParser.parse_log_file` -/

/-- The per-line body of the parse loop: regex match, entry construction,
exclusion and significance filtering. -/
def parse_beacon_line (ctx : ParseCtx) (log_date : String) (line : String) :
    Option LogEvent :=
  match beacon_cmd_match line with
  | none => none
  | some (time_str, beacon_id, username, hostname, command) =>
    let entry : LogEvent :=
      { timestamp := create_iso_timestamp ctx log_date time_str
        hostname := hostname
        username := username
        command := command
        notes := "Beacon ID: " ++ beacon_id ++ ", Local time: " ++ time_str
        filename := ""
        status := ""
        internal_ip := ""
        external_ip := "" }
    if should_exclude_entry entry then none
    else if !is_significant_command ctx.mode command then none
    else some entry

/-- The persisted `processed_lines` dict: insertion-ordered map from absolute
file path to consumed line count. -/
abbrev Offsets : Type := List (String × Nat)

def Offsets.lookup (m : Offsets) (k : String) : Option Nat :=
  match m with
  | [] => none
  | (k', v) :: rest => if k' = k then some v else Offsets.lookup rest k

def Offsets.contains (m : Offsets) (k : String) : Bool :=
  match m with
  | [] => false
  | (k', _) :: rest => k' = k || Offsets.contains rest k

/-- Python dict assignment: overwrite in place (keeping the key's position),
or append a new key at the end. -/
def Offsets.insert (m : Offsets) (k : String) (v : Nat) : Offsets :=
  match m with
  | [] => [(k, v)]
  | (k', v') :: rest =>
    if k' = k then (k, v) :: rest else (k', v') :: Offsets.insert rest k v

def emptyOffsets : Offsets := []

/-- `CobalStrikeParser.parse_log_file`, for a file whose observed content is
`file` (`none` when `open` raises; lines are as returned by `readlines`, i.e.
newline-terminated except possibly the last).  The path is taken to be already
absolute (`os.path.abspath` is the identity on it).  Steps, in source order:
ensure the path has an offsets entry (inserting `0` — this happens before the
`try` block); on a read error return no events; otherwise skip the file when
the offset already covers every line, and otherwise emit the filtered events
of the unconsumed lines and commit the offset to the total line count. -/
def parse_log_file (ctx : ParseCtx) (log_file : String)
    (file : Option (List String)) (processed_lines : Offsets) :
    List LogEvent × Offsets :=
  let pl :=
    if Offsets.contains processed_lines log_file then processed_lines
    else Offsets.insert processed_lines log_file 0
  match file with
  | none => ([], pl)
  | some lines =>
    let log_date := extract_date_from_path ctx.today log_file
    let off := (Offsets.lookup pl log_file).getD 0
    if lines.length ≤ off then ([], pl)
    else ((lines.drop off).filterMap (parse_beacon_line ctx log_date),
          Offsets.insert pl log_file lines.length)

/-! ## `RateLimitQueue` (`forwarder/core/rate_limit_queue.py`)

The deque of entries and the deque of request timestamps are lists with the
left end at the head.  The two clocks (`time.time()` floats and
`datetime.now()` datetimes) are modelled by a single rational-valued instant
passed to each operation.  A `deque` operation on an empty deque
(`popleft`, `deque[0]`) raises `IndexError`; operations that can reach one
return `Option`, `none` being the raise. -/

structure RLQ (α : Type) where
  queue : List α
  rate_limit : Nat
  rate_window : ℚ
  max_queue_size : Nat
  rate_limited : Bool
  rate_limit_reset : Option ℚ
  request_timestamps : List ℚ
  total_queued : Nat
  total_dropped : Nat
  total_sent : Nat
deriving Repr

/-- `RateLimitQueue.__init__`. -/
def RLQ.init (α : Type) (rate_limit : Nat) (rate_window : ℚ) (max_queue_size : Nat) :
    RLQ α :=
  { queue := []
    rate_limit := rate_limit
    rate_window := rate_window
    max_queue_size := max_queue_size
    rate_limited := false
    rate_limit_reset := none
    request_timestamps := []
    total_queued := 0
    total_dropped := 0
    total_sent := 0 }

/-- `RateLimitQueue.add`: evict the oldest entry when at capacity (raising if
the deque is empty, which needs `max_queue_size = 0`), append the new entry,
and return `True`. -/
def RLQ.add (s : RLQ α) (log_entry : α) : Option (RLQ α × Bool) :=
  if s.max_queue_size ≤ s.queue.length then
    match s.queue with
    | [] => none
    | _ :: rest =>
      some ({ s with
                queue := rest ++ [log_entry]
                total_dropped := s.total_dropped + 1
                total_queued := s.total_queued + 1 }, true)
  else
    some ({ s with
              queue := s.queue ++ [log_entry]
              total_queued := s.total_queued + 1 }, true)

/-- `RateLimitQueue.add_batch`: add each entry in turn, counting the `True`
returns; an exception from `add` propagates. -/
def RLQ.add_batch (s : RLQ α) (log_entries : List α) : Option (RLQ α × Nat) :=
  log_entries.foldlM
    (fun acc e => (RLQ.add acc.1 e).map (fun r => (r.1, acc.2 + if r.2 then 1 else 0)))
    (s, 0)

/-- `RateLimitQueue.track_request`. -/
def RLQ.track_request (now : ℚ) (s : RLQ α) : RLQ α :=
  { s with
      request_timestamps := s.request_timestamps ++ [now]
      total_sent := s.total_sent + 1 }

/-- `RateLimitQueue.set_rate_limited`: explicit override, defaulting to a full
window when no reset hint is given. -/
def RLQ.set_rate_limited (now : ℚ) (reset_seconds : Option ℚ) (s : RLQ α) : RLQ α :=
  { s with
      rate_limited := true
      rate_limit_reset := some (now + reset_seconds.getD s.rate_window) }

/-- `RateLimitQueue.is_rate_limited`: the explicit override wins while its
reset time is in the future and clears itself once passed; otherwise
timestamps older than the window are pruned from the front and the window
count is compared against the limit (reading `request_timestamps[0]` raises
when the limit is `0` and no timestamps remain). -/
def RLQ.is_rate_limited (now : ℚ) (s : RLQ α) : Option (RLQ α × Bool × ℚ) :=
  if s.rate_limited ∧ s.rate_limit_reset.isSome then
    match s.rate_limit_reset with
    | none => none
    | some reset =>
      if now < reset then some (s, true, reset - now)
      else some ({ s with rate_limited := false, rate_limit_reset := none }, false, 0)
  else
    let ts := s.request_timestamps.dropWhile (fun t => t < now - s.rate_window)
    if s.rate_limit ≤ ts.length then
      match ts with
      | [] => none
      | oldest :: _ =>
        let seconds_remaining := max 0 (oldest + s.rate_window - now)
        some ({ s with
                  request_timestamps := ts
                  rate_limited := true
                  rate_limit_reset := some (now + seconds_remaining) },
              true, seconds_remaining)
    else some ({ s with request_timestamps := ts }, false, 0)

/-- `RateLimitQueue.get_queued_entries`: empty result when the queue is empty
or when currently rate limited; otherwise pop up to `max_count` entries from
the head (`max_count = none` models the `None` default of half the rate
limit, floored to at least one). -/
def RLQ.get_queued_entries (now : ℚ) (max_count : Option Nat) (s : RLQ α) :
    Option (RLQ α × List α) :=
  if s.queue.isEmpty then some (s, [])
  else
    match RLQ.is_rate_limited now s with
    | none => none
    | some (s1, limited, _) =>
      if limited then some (s1, [])
      else
        let mc := match max_count with
          | none => max 1 (s.rate_limit / 2)
          | some m => min m s1.queue.length
        some ({ s1 with queue := s1.queue.drop mc }, s1.queue.take mc)

/-! ## `LogForwarder.send_logs_to_clio` (`log_exporter/core/forwarder.py`)

HTTP is modelled by an oracle mapping the index of each `requests.post` call
to its outcome.  A `Retry-After` header is modelled after the code's own
parsing cases: a digit string, an HTTP date (carried as the seconds-from-now
the code computes from it), or an unparseable value. -/

inductive RetryAfter where
  | seconds (n : Nat)
  | httpDate (secs_from_now : ℚ)
  | unparseable
deriving Repr

/-- The `Retry-After` handling shared by `test_connection` and
`send_logs_to_clio`: header absent or unparseable gives no hint. -/
def retryAfterSeconds : Option RetryAfter → Option ℚ
  | none => none
  | some (.seconds n) => some (n : ℚ)
  | some (.httpDate d) => some d
  | some .unparseable => none

/-- Outcome of one `requests.post` to the ingest endpoint. -/
inductive Resp where
  | ok
  | rateLimited (retry_after : Option RetryAfter)
  | failStatus
  | netError
deriving Repr

/-- `if 'timestamp' not in log_entry or not log_entry['timestamp']`: the
entry dict always has the key, so only the empty value is replaced. -/
def fixTimestamp (nowIso : String) (e : LogEvent) : LogEvent :=
  if e.timestamp = "" then { e with timestamp := nowIso } else e

/-- Result of running the per-entry loop over one batch. -/
inductive InnerRes where
  | finished (rq : RLQ LogEvent) (k : Nat) (batch : List LogEvent)
  | returnedFalse (rq : RLQ LogEvent) (k : Nat)
  | raised (rq : RLQ LogEvent) (k : Nat)
  | netExc (rq : RLQ LogEvent) (k : Nat) (batch : List LogEvent)
deriving Repr

/-- The `for log_entry in batch` loop.  `done` holds the already-attempted
entries in reverse (their in-place timestamp fixes retained); `k` counts
`requests.post` calls.  A success records a window timestamp; a non-429
failure status only logs and moves on; a network error propagates to the
retry loop with the batch as mutated so far; a 429 sets the rate limit, adds
`batch[batch.index(log_entry):]` back to the queue — `list.index` finds the
first value-equal occurrence — and returns `False`. -/
def sendEntries (nowIso : String) (now : ℚ) (oracle : Nat → Resp) :
    List LogEvent → List LogEvent → RLQ LogEvent → Nat → InnerRes
  | done, [], rq, k => .finished rq k done.reverse
  | done, e :: rest, rq, k =>
    let e' := fixTimestamp nowIso e
    match oracle k with
    | .ok => sendEntries nowIso now oracle (e' :: done) rest (RLQ.track_request now rq) (k + 1)
    | .failStatus => sendEntries nowIso now oracle (e' :: done) rest rq (k + 1)
    | .netError => .netExc rq (k + 1) (done.reverse ++ e' :: rest)
    | .rateLimited ra =>
      let rq1 := RLQ.set_rate_limited now (retryAfterSeconds ra) rq
      let batch_now := done.reverse ++ e' :: rest
      let remaining := batch_now.drop (batch_now.indexOf e')
      match RLQ.add_batch rq1 remaining with
      | none => .raised rq1 (k + 1)
      | some (rq2, _) => .returnedFalse rq2 (k + 1)

/-- The `for attempt in range(max_retries)` loop around one batch:
`retries_left` starts at `max_retries - 1 = 2`; a network error on the last
attempt queues the whole (mutated) batch and returns `False`. -/
def sendBatchAttempts (nowIso : String) (now : ℚ) (oracle : Nat → Resp) :
    Nat → List LogEvent → RLQ LogEvent → Nat → InnerRes
  | retries_left, batch, rq, k =>
    match sendEntries nowIso now oracle [] batch rq k with
    | .netExc rq' k' batch' =>
      match retries_left with
      | 0 =>
        match RLQ.add_batch rq' batch' with
        | none => .raised rq' k'
        | some (rq2, _) => .returnedFalse rq2 k'
      | r + 1 => sendBatchAttempts nowIso now oracle r batch' rq' k'
    | r => r

/-- `range(0, len(logs), batch_size)` with `batch_size = 25`, fuelled by the
list length (each step consumes at least one element, so the fuel never runs
out on the paths the loop takes). -/
def toBatchesAux : Nat → List LogEvent → List (List LogEvent)
  | 0, _ => []
  | fuel + 1, l =>
    if l = [] then []
    else l.take 25 :: toBatchesAux fuel (l.drop 25)

def toBatches (l : List LogEvent) : List (List LogEvent) :=
  toBatchesAux l.length l

/-- Overall result of the batch loop. -/
inductive BatchRes where
  | retTrue (rq : RLQ LogEvent) (k : Nat)
  | retFalse (rq : RLQ LogEvent) (k : Nat)
  | raised (rq : RLQ LogEvent) (k : Nat)
deriving Repr

/-- The `for i in range(0, len(logs), batch_size)` loop; falling off the end
is `return True`.  (`sendBatchAttempts` can never yield `netExc`; that case
is mapped to the impossible-exception result.) -/
def sendBatches (nowIso : String) (now : ℚ) (oracle : Nat → Resp) :
    List (List LogEvent) → RLQ LogEvent → Nat → BatchRes
  | [], rq, k => .retTrue rq k
  | b :: bs, rq, k =>
    match sendBatchAttempts nowIso now oracle 2 b rq k with
    | .finished rq' k' _ => sendBatches nowIso now oracle bs rq' k'
    | .returnedFalse rq' k' => .retFalse rq' k'
    | .raised rq' k' => .raised rq' k'
    | .netExc rq' k' _ => .raised rq' k'

/-- `LogForwarder.send_logs_to_clio`.  Empty input returns `True` at once.
Otherwise, under the outer `try`: if already rate limited, queue everything
and return `False`; else run the batch loop.  The outer `except Exception`
queues all of `logs` and returns `False`; an exception raised inside that
handler itself propagates (`none`). -/
def send_logs_to_clio (nowIso : String) (now : ℚ) (oracle : Nat → Resp)
    (logs : List LogEvent) (rq : RLQ LogEvent) (k : Nat) :
    Option (Bool × RLQ LogEvent × Nat) :=
  if logs.isEmpty then some (true, rq, k)
  else
    let body :=
      match RLQ.is_rate_limited now rq with
      | none => BatchRes.raised rq k
      | some (rq1, true, _) =>
        match RLQ.add_batch rq1 logs with
        | none => BatchRes.raised rq1 k
        | some (rq2, _) => BatchRes.retFalse rq2 k
      | some (rq1, false, _) => sendBatches nowIso now oracle (toBatches logs) rq1 k
    match body with
    | .retTrue rq' k' => some (true, rq', k')
    | .retFalse rq' k' => some (false, rq', k')
    | .raised rq' k' => (RLQ.add_batch rq' logs).map (fun r => (false, r.1, k'))

/-! ## The directory-scan loop (`LogForwarder.scan_directories`)

For the parse-related claims the loop is modelled over the candidate files it
visits, each file given with its observed content; every file is handed to
`parse_log_file` in turn, and a failing file contributes an empty event list
without stopping the traversal (its body is guarded by the try/except blocks
of `process_log_file` and `parse_log_file`). -/

def scan_parse_files (ctx : ParseCtx)
    (files : List (String × Option (List String))) (pl : Offsets) :
    List (List LogEvent) × Offsets :=
  match files with
  | [] => ([], pl)
  | (p, content) :: rest =>
    let r := parse_log_file ctx p content pl
    let rec' := scan_parse_files ctx rest r.2
    (r.1 :: rec'.1, rec'.2)

/-! ## `LogForwarder.load_state` (`log_exporter/core/forwarder.py`)

The pickled artifact is an untyped Python value; `load_state` reads it under
a catch-all `try`, so every deserialization failure (missing pickle module
structure, wrong types, unreadable file) resets both maps to empty.
`os.path.abspath`, applied to each `processed_lines` key, is passed in as an
arbitrary normalizer. -/

inductive PVal where
  | pnone
  | pbool (b : Bool)
  | pint (n : Int)
  | pstr (s : String)
  | plist (xs : List PVal)
  | pdict (entries : List (PVal × PVal))

/-- Does a dict key equal the given Python string? (Python `==`; a non-string
key never equals a string.) -/
def keyMatches (key : String) : PVal → Bool
  | .pstr s => s = key
  | _ => false

/-- `state.get(key, default)` for a dict value. -/
def pdictGet (entries : List (PVal × PVal)) (key : String) (default : PVal) : PVal :=
  match entries.find? (fun p => keyMatches key p.1) with
  | some p => p.2
  | none => default

/-- Insertion-ordered dict update for the rebuilt `processed_lines`. -/
def dinsert (m : List (String × PVal)) (k : String) (v : PVal) : List (String × PVal) :=
  match m with
  | [] => [(k, v)]
  | (k', v') :: rest =>
    if k' = k then (k, v) :: rest else (k', v') :: dinsert rest k v

/-- The body of `load_state`'s `try` block after a successful `pickle.load`:
`.get` on a non-dict raises; `.items()` on a non-dict raises; a non-string
key raises inside `os.path.abspath`.  On success, the unnormalized
`processed_lines` pairs and the raw `file_metadata` value. -/
def tryParseState (v : PVal) : Except Unit (List (String × PVal) × PVal) :=
  match v with
  | .pdict entries =>
    match pdictGet entries "processed_lines" (.pdict []) with
    | .pdict pl =>
      match pl.mapM (fun p =>
          match p.1 with
          | .pstr s => Except.ok ((s, p.2) : String × PVal)
          | _ => Except.error ()) with
      | .ok pairs => .ok (pairs, pdictGet entries "file_metadata" (.pdict []))
      | .error e => .error e
    | _ => .error ()
  | _ => .error ()

/-- The on-disk state artifact as `load_state` can encounter it. -/
inductive Artifact where
  | missing
  | corrupt
  | value (v : PVal)

/-- The in-memory pair `(processed_lines, file_metadata)`. -/
abbrev LoadedState : Type := List (String × PVal) × PVal

/-- `__init__` sets both maps empty before calling `load_state`. -/
def emptyLoadedState : LoadedState := ([], .pdict [])

/-- `LogForwarder.load_state`: a missing file leaves the in-memory state
alone; any exception (unreadable pickle, or a failure inside the `try` body)
is caught and resets both maps to empty. -/
def load_state (norm : String → String) (prior : LoadedState) (a : Artifact) :
    LoadedState :=
  match a with
  | .missing => prior
  | .corrupt => emptyLoadedState
  | .value v =>
    match tryParseState v with
    | .ok (pl, fm) => (pl.foldl (fun acc p => dinsert acc (norm p.1) p.2) [], fm)
    | .error _ => emptyLoadedState

/-! ## Auxiliary definitions used by the claims -/

/-- Successive incremental parse passes over one file: each pass hands
`parse_log_file` the file content observed at that time and threads the
persisted offsets map through (as across process restarts). -/
def runPasses (ctx : ParseCtx) (p : String) (passes : List (List String))
    (m : Offsets) : List LogEvent × Offsets :=
  match passes with
  | [] => ([], m)
  | l :: rest =>
    let r := parse_log_file ctx p (some l) m
    let rr := runPasses ctx p rest r.2
    (r.1 ++ rr.1, rr.2)

/-- Insert entries one at a time through `RateLimitQueue.add`, propagating a
raised exception. -/
def addSeq (s : RLQ α) (es : List α) : Option (RLQ α) :=
  es.foldlM (fun acc e => (RLQ.add acc e).map Prod.fst) s

/-- Modelled from the spec: "the nearest date-named ancestor directory
(`YYYY-MM-DD`)" of a path — walk `os.path.dirname` upward from the file and
return the first ancestor whose name matches the date pattern.  This is the
spec's reading of `is_file_outdated`, kept separate from the source
definition for comparison. -/
def nearestDateAncestorAux : Nat → String → Option String
  | 0, _ => none
  | fuel + 1, p =>
    let d := os_dirname p
    let b := os_basename d
    if isDateCore b.toList then some b
    else if d = p ∨ d = "" then none
    else nearestDateAncestorAux fuel d

/-- Modelled from the spec: the nearest date-named ancestor directory of the
path (the walk terminates within `p.length` steps). -/
def spec_nearest_date_ancestor (p : String) : Option String :=
  nearestDateAncestorAux p.length p

/-- Modelled from the spec: "`is_file_outdated(path, cutoff)`: true iff the
nearest date-named ancestor directory (`YYYY-MM-DD`) is lexicographically
less than cutoff." -/
def spec_is_file_outdated (p cutoff : String) : Bool :=
  match spec_nearest_date_ancestor p with
  | some d => pyStrLt d cutoff
  | none => false

/-- The executable comparison agrees with Lean's lexicographic `String` order
(which matches Python's code-point comparison). -/
theorem pyStrLtL_iff : ∀ as bs : List Char, pyStrLtL as bs = true ↔ List.lt as bs := by
  intro as
  induction as with
  | nil =>
    intro bs
    cases bs with
    | nil =>
      simp only [pyStrLtL, Bool.false_eq_true, false_iff]
      intro h
      cases h
    | cons b bs =>
      simp only [pyStrLtL, true_iff]
      exact List.lt.nil b bs
  | cons a as ih =>
    intro bs
    cases bs with
    | nil =>
      simp only [pyStrLtL, Bool.false_eq_true, false_iff]
      intro h
      cases h
    | cons b bs =>
      by_cases h1 : a < b
      · simp only [pyStrLtL, h1, if_pos, true_iff]
        exact List.lt.head _ _ h1
      · by_cases h2 : b < a
        · simp only [pyStrLtL, if_neg h1, if_pos h2, Bool.false_eq_true, false_iff]
          intro h
          cases h with
          | head _ _ hlt => exact h1 hlt
          | tail _ h2' _ => exact h2' h2
        · simp only [pyStrLtL, if_neg h1, if_neg h2, ih]
          constructor
          · exact fun h => List.lt.tail h1 h2 h
          · intro h
            cases h with
            | head _ _ hlt => exact absurd hlt h1
            | tail _ _ htl => exact htl

theorem pyStrLt_iff (a b : String) : pyStrLt a b = true ↔ a < b := by
  rw [String.lt_iff_toList_lt]
  change pyStrLtL a.toList b.toList = true ↔ List.Lex (· < ·) a.toList b.toList
  exact (pyStrLtL_iff a.toList b.toList).trans (List.lt_iff_lex_lt a.toList b.toList)

/-! ## Offsets map lemmas -/

theorem Offsets.contains_eq_isSome (m : Offsets) (k : String) :
    Offsets.contains m k = (Offsets.lookup m k).isSome := by
  induction m with
  | nil => rfl
  | cons q m ih =>
    obtain ⟨k', v⟩ := q
    by_cases hq : k' = k <;> simp [Offsets.contains, Offsets.lookup, hq, ih]

theorem Offsets.lookup_insert_self (m : Offsets) (k : String) (v : Nat) :
    Offsets.lookup (Offsets.insert m k v) k = some v := by
  induction m with
  | nil => simp [Offsets.insert, Offsets.lookup]
  | cons q m ih =>
    obtain ⟨k', v'⟩ := q
    by_cases hq : k' = k <;> simp [Offsets.insert, Offsets.lookup, hq, ih]

theorem Offsets.lookup_insert_ne (m : Offsets) (k k' : String) (v : Nat)
    (h : k' ≠ k) :
    Offsets.lookup (Offsets.insert m k v) k' = Offsets.lookup m k' := by
  induction m with
  | nil => simp [Offsets.insert, Offsets.lookup, Ne.symm h]
  | cons q m ih =>
    obtain ⟨k0, v0⟩ := q
    by_cases hq : k0 = k
    · subst hq
      simp [Offsets.insert, Offsets.lookup, Ne.symm h]
    · by_cases hq2 : k0 = k'
      · subst hq2
        simp [Offsets.insert, Offsets.lookup, hq, h]
      · simp [Offsets.insert, Offsets.lookup, hq, hq2, ih]

/-! ## Parse evaluation lemmas -/

/-- The first step of `parse_log_file`: ensure the path has an offsets entry
(lines `if abs_log_file not in processed_lines: processed_lines[...] = 0`). -/
def normOffsets (m : Offsets) (p : String) : Offsets :=
  if Offsets.contains m p then m else Offsets.insert m p 0

theorem lookup_normOffsets_self (m : Offsets) (p : String) :
    Offsets.lookup (normOffsets m p) p = some ((Offsets.lookup m p).getD 0) := by
  unfold normOffsets
  cases hc : Offsets.contains m p with
  | false =>
    rw [Offsets.contains_eq_isSome] at hc
    cases hl : Offsets.lookup m p with
    | none => simp [Offsets.lookup_insert_self]
    | some v => rw [hl] at hc; simp at hc
  | true =>
    rw [Offsets.contains_eq_isSome] at hc
    cases hl : Offsets.lookup m p with
    | none => rw [hl] at hc; simp at hc
    | some v => simp [hl]

theorem lookup_normOffsets_ne (m : Offsets) (p q : String) (h : q ≠ p) :
    Offsets.lookup (normOffsets m p) q = Offsets.lookup m q := by
  unfold normOffsets
  cases Offsets.contains m p with
  | false => simp [Offsets.lookup_insert_ne m p q 0 h]
  | true => simp

theorem normOffsets_of_contains (m : Offsets) (p : String)
    (h : Offsets.contains m p = true) : normOffsets m p = m := by
  simp [normOffsets, h]

/-- Evaluation shape of `parse_log_file` on a readable file. -/
theorem parse_log_file_some_eq (ctx : ParseCtx) (p : String)
    (l : List String) (m : Offsets) :
    parse_log_file ctx p (some l) m =
      (if l.length ≤ (Offsets.lookup m p).getD 0 then ([], normOffsets m p)
       else ((l.drop ((Offsets.lookup m p).getD 0)).filterMap
               (parse_beacon_line ctx (extract_date_from_path ctx.today p)),
             Offsets.insert (normOffsets m p) p l.length)) := by
  show (if l.length ≤ (Offsets.lookup (normOffsets m p) p).getD 0
        then ([], normOffsets m p)
        else ((l.drop ((Offsets.lookup (normOffsets m p) p).getD 0)).filterMap
                (parse_beacon_line ctx (extract_date_from_path ctx.today p)),
              Offsets.insert (normOffsets m p) p l.length)) = _
  rw [lookup_normOffsets_self, Option.getD_some]

/-- A `Chain'` of prefixes makes the head a prefix of the last element. -/
theorem chain_prefix_getLastD :
    ∀ (rest : List (List String)) (l : List String),
      List.Chain' (· <+: ·) (l :: rest) → l <+: rest.getLastD l := by
  intro rest
  induction rest with
  | nil => intro l _; exact List.prefix_refl l
  | cons x xs ih =>
    intro l h
    rw [List.chain'_cons] at h
    rw [List.getLastD_cons]
    exact h.1.trans (ih x h.2)

/-- Running successive parse passes over growing prefixes of a file, starting
with committed offset `A.length` (where `A` is the content already consumed),
emits exactly the filtered events of the unconsumed suffix of the final
content, and commits the final content's line count. -/
theorem runPasses_events (ctx : ParseCtx) (p : String) :
    ∀ (passes : List (List String)) (A : List String) (m : Offsets),
      List.Chain' (· <+: ·) (A :: passes) →
      (Offsets.lookup m p).getD 0 = A.length →
      (runPasses ctx p passes m).1 =
        ((passes.getLastD A).drop A.length).filterMap
          (parse_beacon_line ctx (extract_date_from_path ctx.today p)) ∧
      (Offsets.lookup (runPasses ctx p passes m).2 p).getD 0 =
        (passes.getLastD A).length := by
  intro passes
  induction passes with
  | nil =>
    intro A m _ hoff
    refine ⟨?_, ?_⟩
    · simp [runPasses, List.drop_length]
    · simpa [runPasses] using hoff
  | cons l rest ih =>
    intro A m hchain hoff
    rw [List.chain'_cons] at hchain
    obtain ⟨hAl, hchain'⟩ := hchain
    have hAle : A.length ≤ l.length := hAl.length_le
    by_cases hle : l.length ≤ A.length
    · -- the pass saw no new lines: A = l and the offsets map is only normalized
      have hAeq : A = l := hAl.eq_of_length (Nat.le_antisymm hAle hle)
      subst hAeq
      have hrun : runPasses ctx p (A :: rest) m =
          ((parse_log_file ctx p (some A) m).1 ++
             (runPasses ctx p rest (parse_log_file ctx p (some A) m).2).1,
           (runPasses ctx p rest (parse_log_file ctx p (some A) m).2).2) := rfl
      rw [parse_log_file_some_eq, hoff, if_pos hle] at hrun
      dsimp only at hrun
      have hoff' : (Offsets.lookup (normOffsets m p) p).getD 0 = A.length := by
        rw [lookup_normOffsets_self, Option.getD_some, hoff]
      obtain ⟨he, ho⟩ := ih A (normOffsets m p) hchain' hoff'
      refine ⟨?_, ?_⟩
      · rw [hrun, List.getLastD_cons]
        dsimp only
        rw [List.nil_append]
        exact he
      · rw [hrun, List.getLastD_cons]
        exact ho
    · -- new lines were consumed: events of l.drop A.length, offset committed
      have hrun : runPasses ctx p (l :: rest) m =
          ((parse_log_file ctx p (some l) m).1 ++
             (runPasses ctx p rest (parse_log_file ctx p (some l) m).2).1,
           (runPasses ctx p rest (parse_log_file ctx p (some l) m).2).2) := rfl
      rw [parse_log_file_some_eq, hoff, if_neg hle] at hrun
      dsimp only at hrun
      have hoff' : (Offsets.lookup
          (Offsets.insert (normOffsets m p) p l.length) p).getD 0 = l.length := by
        rw [Offsets.lookup_insert_self, Option.getD_some]
      obtain ⟨he, ho⟩ := ih l (Offsets.insert (normOffsets m p) p l.length) hchain' hoff'
      have hlast : l <+: rest.getLastD l := chain_prefix_getLastD rest l hchain'
      obtain ⟨t, ht⟩ := hlast
      refine ⟨?_, ?_⟩
      · rw [hrun, List.getLastD_cons]
        dsimp only
        rw [he, ← ht, List.drop_left, List.drop_append_eq_append_drop,
          Nat.sub_eq_zero_of_le hAle, List.drop_zero, List.filterMap_append]
      · rw [hrun, List.getLastD_cons]
        exact ho

/-! ## Claim theorems -/

/-- C1: for every log file and every split of its lines into successive
incremental parse passes (each pass starting from the offset the previous
pass committed, as across process restarts), the concatenation of the event
lists returned by `parse_log_file` over the passes equals the event list
returned by parsing the whole file once from offset 0, in the same order —
so no previously consumed line is ever re-emitted. -/
theorem c1_incremental_passes_equal_full_parse (ctx : ParseCtx) (p : String)
    (passes : List (List String)) (m0 : Offsets)
    (hne : passes ≠ [])
    (hchain : List.Chain' (· <+: ·) passes)
    (h0 : (Offsets.lookup m0 p).getD 0 = 0) :
    (runPasses ctx p passes m0).1 =
      (parse_log_file ctx p (some (passes.getLast hne)) m0).1 := by
  obtain ⟨l, rest, rfl⟩ : ∃ l rest, passes = l :: rest := by
    cases passes with
    | nil => exact absurd rfl hne
    | cons a b => exact ⟨a, b, rfl⟩
  have hch : List.Chain' (· <+: ·) ([] :: l :: rest) :=
    List.chain'_cons.mpr ⟨List.nil_prefix, hchain⟩
  obtain ⟨he, _⟩ := runPasses_events ctx p (l :: rest) [] m0 hch h0
  rw [he, List.getLastD_cons, List.getLast_eq_getLastD,
    parse_log_file_some_eq, h0]
  by_cases hF : (rest.getLastD l).length ≤ 0
  · rw [if_pos hF]
    have hnil : rest.getLastD l = [] := by
      exact List.eq_nil_of_length_eq_zero (Nat.le_zero.mp hF)
    rw [hnil]
    simp
  · rw [if_neg hF]
    simp only [List.length_nil, List.drop_zero]

/-- C1 witness: two passes over a growing two-line file emit the same events
as one full parse from offset 0. -/
theorem c1_incremental_passes_witness :
    (runPasses
       { mode := .all, today := "1970-01-01", nowTime := "00:00:00",
         nowIso := "1970-01-01T00:00:00" }
       "/logs/2025-06-01/beacon_9.log"
       [["[14:02:10] Beacon 9 (u@h): ls\n"],
        ["[14:02:10] Beacon 9 (u@h): ls\n", "[14:02:11] Beacon 9 (u@h): pwd\n"]]
       []).1 =
      (parse_log_file
        { mode := .all, today := "1970-01-01", nowTime := "00:00:00",
          nowIso := "1970-01-01T00:00:00" }
        "/logs/2025-06-01/beacon_9.log"
        (some ["[14:02:10] Beacon 9 (u@h): ls\n",
               "[14:02:11] Beacon 9 (u@h): pwd\n"]) []).1 :=
  c1_incremental_passes_equal_full_parse _ _ _ _
    (List.cons_ne_nil _ _)
    (List.chain'_cons.mpr
      ⟨⟨["[14:02:11] Beacon 9 (u@h): pwd\n"], rfl⟩, List.chain'_singleton _⟩)
    rfl

/-- C5 counterexample: the claim "an exception while parsing leaves the
offsets map unchanged" fails for a file that was not yet tracked: the entry
`path ↦ 0` is created before the `try` block, so the map changes even though
the read raises. -/
theorem c5_counterexample_new_entry_on_error :
    (parse_log_file
      { mode := .all, today := "1970-01-01", nowTime := "00:00:00",
        nowIso := "1970-01-01T00:00:00" }
      "/logs/2025-06-01/beacon_3.log" none ([] : Offsets)).2 =
      [("/logs/2025-06-01/beacon_3.log", 0)] ∧
    ([("/logs/2025-06-01/beacon_3.log", 0)] : Offsets) ≠ [] :=
  ⟨rfl, by decide⟩

/-- C5 (amended): if an exception is raised while parsing a single file,
`parse_log_file` returns the empty event list; every entry of the offsets map
for another file keeps its prior value; if the failing file was already
tracked the map is entirely unchanged, and if it was untracked it gains an
entry of `0` (inserted before the `try` block); and the failure never aborts
the surrounding directory-scan loop, which still yields one result per
candidate file. -/
theorem c5_parse_error_policy (ctx : ParseCtx) (p : String) (m : Offsets) :
    (parse_log_file ctx p none m).1 = [] ∧
    (∀ q, q ≠ p →
      Offsets.lookup (parse_log_file ctx p none m).2 q = Offsets.lookup m q) ∧
    (Offsets.contains m p = true → (parse_log_file ctx p none m).2 = m) ∧
    (Offsets.contains m p = false →
      (parse_log_file ctx p none m).2 = Offsets.insert m p 0 ∧
      Offsets.lookup (parse_log_file ctx p none m).2 p = some 0) ∧
    (∀ (files : List (String × Option (List String))) (m' : Offsets),
      (scan_parse_files ctx files m').1.length = files.length) := by
  refine ⟨rfl, ?_, ?_, ?_, ?_⟩
  · intro q hq
    exact lookup_normOffsets_ne m p q hq
  · intro h
    exact normOffsets_of_contains m p h
  · intro h
    have h2 : (parse_log_file ctx p none m).2 = Offsets.insert m p 0 := by
      show normOffsets m p = _
      simp [normOffsets, h]
    refine ⟨h2, ?_⟩
    rw [h2, Offsets.lookup_insert_self]
  · intro files
    induction files with
    | nil => intro m'; rfl
    | cons f rest ih =>
      intro m'
      simpa [scan_parse_files] using ih _

/-- C5 witness: a failing read of an untracked file beside a tracked one. -/
theorem c5_parse_error_policy_witness :
    (parse_log_file
      { mode := .all, today := "1970-01-01", nowTime := "00:00:00",
        nowIso := "1970-01-01T00:00:00" }
      "/logs/f.log" none [("/logs/g.log", 5)]).1 = [] ∧
    Offsets.lookup
      (parse_log_file
        { mode := .all, today := "1970-01-01", nowTime := "00:00:00",
          nowIso := "1970-01-01T00:00:00" }
        "/logs/f.log" none [("/logs/g.log", 5)]).2 "/logs/g.log" = some 5 ∧
    (parse_log_file
      { mode := .all, today := "1970-01-01", nowTime := "00:00:00",
        nowIso := "1970-01-01T00:00:00" }
      "/logs/f.log" none [("/logs/g.log", 5)]).2 =
      [("/logs/g.log", 5), ("/logs/f.log", 0)] ∧
    (scan_parse_files
      { mode := .all, today := "1970-01-01", nowTime := "00:00:00",
        nowIso := "1970-01-01T00:00:00" }
      [("/logs/f.log", none), ("/logs/g.log", some [])] []).1.length = 2 := by
  refine ⟨(c5_parse_error_policy _ _ _).1, ?_, ?_, ?_⟩
  · rw [(c5_parse_error_policy _ "/logs/f.log" _).2.1 "/logs/g.log" (by decide)]
    rfl
  · rw [((c5_parse_error_policy _ "/logs/f.log" [("/logs/g.log", 5)]).2.2.2.1 rfl).1]
    rfl
  · exact (c5_parse_error_policy
      { mode := .all, today := "1970-01-01", nowTime := "00:00:00",
        nowIso := "1970-01-01T00:00:00" } "/x" []).2.2.2.2 _ _

/-- C6 counterexample: for a file nested one level below its date directory,
the claim's "nearest date-named ancestor" reading says outdated, but the code
inspects only the immediate parent directory name (`sub`) and returns false. -/
theorem c6_counterexample_nested_file :
    is_file_outdated "/logs/2000-01-01/sub/x.log" "2025-01-01" = false ∧
    spec_is_file_outdated "/logs/2000-01-01/sub/x.log" "2025-01-01" = true :=
  ⟨by decide, by decide⟩

/-- C6 (amended): `is_file_outdated` is true iff the name of the file's
immediate parent directory matches `YYYY-MM-DD` and is lexicographically less
than the cutoff; when the immediate parent is date-named it coincides with
the nearest date-named ancestor and the code agrees with the spec's reading,
but with a non-date parent the result is false regardless of higher
ancestors (and of the file's mtime, which is never consulted). -/
theorem c6_is_file_outdated_parent_only (p c : String) :
    (is_file_outdated p c = true ↔
       (isDateName (os_basename (os_dirname p)) = true ∧
        os_basename (os_dirname p) < c)) ∧
    (isDateCore (os_basename (os_dirname p)).toList = true →
       spec_nearest_date_ancestor p = some (os_basename (os_dirname p)) ∧
       is_file_outdated p c = spec_is_file_outdated p c) := by
  constructor
  · simp [is_file_outdated, Bool.and_eq_true, pyStrLt_iff]
  · intro h
    have h' : isDateCore (os_basename (os_dirname p)).data = true := h
    by_cases hp : p = ""
    · subst hp
      exact absurd h (by decide)
    · obtain ⟨n, hn⟩ : ∃ n, p.length = n + 1 := by
        cases hl : p.length with
        | zero =>
          apply absurd _ hp
          have hd : p.data = [] := List.eq_nil_of_length_eq_zero hl
          show p = ""
          cases p with
          | mk d => cases hd; rfl
        | succ n => exact ⟨n, rfl⟩
      constructor
      · unfold spec_nearest_date_ancestor
        rw [hn]
        simp [nearestDateAncestorAux, h']
      · unfold is_file_outdated spec_is_file_outdated spec_nearest_date_ancestor
        rw [hn]
        simp [nearestDateAncestorAux, h', isDateName, isDateNameL]

/-- C6 witness: a file directly under its date directory, where the code and
the nearest-ancestor reading agree. -/
theorem c6_is_file_outdated_parent_only_witness :
    spec_nearest_date_ancestor "/logs/2025-06-01/b.log" =
      some (os_basename (os_dirname "/logs/2025-06-01/b.log")) ∧
    is_file_outdated "/logs/2025-06-01/b.log" "2025-06-03" =
      spec_is_file_outdated "/logs/2025-06-01/b.log" "2025-06-03" :=
  (c6_is_file_outdated_parent_only _ _).2 (by decide)

/-- C7: parsing the single line
`[14:02:10] Beacon 4521 (CORP\jsmith@DC01): shell whoami` from a file under
date-partition directory `2025-06-01`, with filter mode "all" and offset 0,
yields exactly one event with username `CORP\jsmith`, hostname `DC01`,
command `shell whoami`, and timestamp `2025-06-01T14:02:10`. -/
theorem c7_beacon_line_scenario :
    parse_log_file
      { mode := .all, today := "1970-01-01", nowTime := "00:00:00",
        nowIso := "1970-01-01T00:00:00" }
      "/opt/cobaltstrike/logs/2025-06-01/beacon_4521.log"
      (some ["[14:02:10] Beacon 4521 (CORP\\jsmith@DC01): shell whoami\n"])
      emptyOffsets =
    ([{ timestamp := "2025-06-01T14:02:10"
        hostname := "DC01"
        username := "CORP\\jsmith"
        command := "shell whoami"
        notes := "Beacon ID: 4521, Local time: 14:02:10"
        filename := ""
        status := ""
        internal_ip := ""
        external_ip := "" }],
     [("/opt/cobaltstrike/logs/2025-06-01/beacon_4521.log", 1)]) := by
  rfl

/-- C8: for a log file whose stored offset equals its current line count,
`parse_log_file` returns no events and leaves the offsets map unchanged. -/
theorem c8_parse_unchanged_offset (ctx : ParseCtx) (p : String)
    (lines : List String) (m : Offsets)
    (h : Offsets.lookup m p = some lines.length) :
    parse_log_file ctx p (some lines) m = ([], m) := by
  have hc : Offsets.contains m p = true := by
    rw [Offsets.contains_eq_isSome, h]
    rfl
  unfold parse_log_file
  simp [hc, h]

/-- C8 witness: a one-line file with stored offset 1 yields no events and an
unchanged map. -/
theorem c8_parse_unchanged_offset_witness :
    parse_log_file
      { mode := .all, today := "1970-01-01", nowTime := "00:00:00",
        nowIso := "1970-01-01T00:00:00" }
      "/logs/2025-06-01/beacon_7.log"
      (some ["[14:02:10] Beacon 7 (a@b): ls\n"])
      [("/logs/2025-06-01/beacon_7.log", 1)] =
    ([], [("/logs/2025-06-01/beacon_7.log", 1)]) :=
  c8_parse_unchanged_offset _ _ _ _ (by rfl)

/-! ## Queue lemmas -/

theorem addSeq_append (s : RLQ α) (l l' : List α) :
    addSeq s (l ++ l') = (addSeq s l).bind (fun s1 => addSeq s1 l') := by
  unfold addSeq
  rw [List.foldlM_append]
  cases (l.foldlM (fun acc e => (RLQ.add acc e).map Prod.fst) s) <;> rfl

/-- Adding entries while there is room never evicts: the queue grows at the
tail, the drop counter is untouched. -/
theorem addSeq_no_evict : ∀ (es : List α) (s : RLQ α),
    s.queue.length + es.length ≤ s.max_queue_size →
    ∃ s', addSeq s es = some s' ∧
      s'.queue = s.queue ++ es ∧
      s'.max_queue_size = s.max_queue_size ∧
      s'.total_dropped = s.total_dropped ∧
      s'.total_queued = s.total_queued + es.length := by
  intro es
  induction es with
  | nil =>
    intro s _
    exact ⟨s, rfl, by simp, rfl, rfl, by simp⟩
  | cons e es ih =>
    intro s h
    rw [List.length_cons] at h
    have hlt : ¬ s.max_queue_size ≤ s.queue.length := by omega
    have hstep : addSeq s (e :: es) =
        addSeq { s with queue := s.queue ++ [e],
                        total_queued := s.total_queued + 1 } es := by
      unfold addSeq
      rw [List.foldlM_cons]
      unfold RLQ.add
      rw [if_neg hlt]
      rfl
    obtain ⟨s', h1, h2, h3, h4, h5⟩ := ih
      { s with queue := s.queue ++ [e], total_queued := s.total_queued + 1 }
      (by simp; omega)
    refine ⟨s', hstep.trans h1, ?_, h3, h4, ?_⟩
    · rw [h2]
      simp
    · rw [h5]
      simp
      omega

/-- `RateLimitQueue.add` with positive capacity always succeeds and returns
`True`, preserving the configured capacity. -/
theorem RLQ.add_some_true (s : RLQ α) (e : α) (h : 1 ≤ s.max_queue_size) :
    ∃ s', RLQ.add s e = some (s', true) ∧
      s'.max_queue_size = s.max_queue_size := by
  by_cases hc : s.max_queue_size ≤ s.queue.length
  · cases hq : s.queue with
    | nil =>
      rw [hq] at hc
      simp at hc
      omega
    | cons a rest =>
      refine ⟨{ s with queue := rest ++ [e],
                       total_queued := s.total_queued + 1,
                       total_dropped := s.total_dropped + 1 }, ?_, rfl⟩
      unfold RLQ.add
      rw [if_pos hc, hq]
  · refine ⟨{ s with queue := s.queue ++ [e],
                     total_queued := s.total_queued + 1 }, ?_, rfl⟩
    unfold RLQ.add
    rw [if_neg hc]

/-- C2 counterexample: with `max_queue_size = 0` the eviction branch calls
`popleft` on an empty deque, so the very first `add` raises `IndexError`
instead of leaving the queue holding the last 0 entries. -/
theorem c2_counterexample_zero_capacity :
    addSeq (RLQ.init Nat 120 60 0) [7] = none := by
  rfl

/-- C2 (amended): for capacity `N ≥ 1`, inserting `N + 1` entries into an
initially empty queue succeeds without blocking or raising and leaves the
queue holding exactly the last `N` entries in insertion order, the oldest
entry having been evicted from the head, with `total_dropped` incremented by
exactly 1 (`max_queue_size = 0` instead raises, see the counterexample). -/
theorem c2_bounded_drop (α : Type) (rate_limit : Nat) (rate_window : ℚ)
    (N : Nat) (hN : 1 ≤ N) (es : List α) (hlen : es.length = N + 1) :
    ∃ s', addSeq (RLQ.init α rate_limit rate_window N) es = some s' ∧
      s'.queue = es.tail ∧
      s'.total_dropped = 1 ∧
      s'.total_queued = N + 1 := by
  obtain ⟨ys, z, rfl⟩ : ∃ ys z, es = ys ++ [z] := by
    rcases List.eq_nil_or_concat es with h | ⟨ys, z, h⟩
    · rw [h] at hlen
      simp at hlen
    · exact ⟨ys, z, by simpa [List.concat_eq_append] using h⟩
  have hys : ys.length = N := by
    rw [List.length_append, List.length_singleton] at hlen
    omega
  obtain ⟨s1, h1, hq, hm, hd, ht⟩ :=
    addSeq_no_evict ys (RLQ.init α rate_limit rate_window N)
      (by simp [RLQ.init, hys])
  have hq1 : s1.queue = ys := by simpa [RLQ.init] using hq
  have hm1 : s1.max_queue_size = N := by simpa [RLQ.init] using hm
  have hd1 : s1.total_dropped = 0 := by simpa [RLQ.init] using hd
  have ht1 : s1.total_queued = N := by simpa [RLQ.init, hys] using ht
  rw [addSeq_append, h1]
  cases ys with
  | nil =>
    rw [List.length_nil] at hys
    omega
  | cons y0 ytl =>
    have hfull : s1.max_queue_size ≤ s1.queue.length := by
      rw [hm1, hq1, hys]
    refine ⟨{ s1 with queue := ytl ++ [z],
                      total_queued := s1.total_queued + 1,
                      total_dropped := s1.total_dropped + 1 }, ?_, ?_, ?_, ?_⟩
    · show addSeq s1 [z] = _
      unfold addSeq
      rw [List.foldlM_cons]
      unfold RLQ.add
      rw [if_pos hfull, hq1]
      rfl
    · simp
    · show s1.total_dropped + 1 = 1
      rw [hd1]
    · show s1.total_queued + 1 = N + 1
      rw [ht1]

/-- C2 witness: capacity 1, two inserts — the queue keeps only the second
entry and one drop is counted. -/
theorem c2_bounded_drop_witness :
    ∃ s', addSeq (RLQ.init Nat 120 60 1) [10, 20] = some s' ∧
      s'.queue = [20] ∧
      s'.total_dropped = 1 ∧
      s'.total_queued = 2 :=
  c2_bounded_drop Nat 120 60 1 (by decide) [10, 20] (by decide)

/-- C10 counterexample: `add` does not return at all (it raises) when
`max_queue_size = 0` and the queue is empty, so "add always returns True"
fails there; with capacity at least 1 it holds (see the amended theorem). -/
theorem c10_counterexample_zero_capacity :
    RLQ.add (RLQ.init Nat 120 60 0) 3 = none := by
  rfl

/-- C10 (amended): with `max_queue_size ≥ 1`, `RateLimitQueue.add` always
returns `True` — also when it evicts the oldest entry at capacity — so a
drop is observable only through `total_dropped`, never through the return
value; consequently `add_batch` always reports the full length of its input
list as added. -/
theorem c10_add_returns_true (α : Type) (s : RLQ α) (e : α) (es : List α)
    (h : 1 ≤ s.max_queue_size) :
    (∃ s', RLQ.add s e = some (s', true)) ∧
    (∃ s', RLQ.add_batch s es = some (s', es.length)) := by
  constructor
  · obtain ⟨s', h1, _⟩ := RLQ.add_some_true s e h
    exact ⟨s', h1⟩
  · have key : ∀ (es : List α) (s : RLQ α) (c : Nat), 1 ≤ s.max_queue_size →
        ∃ s', es.foldlM
            (fun acc e => (RLQ.add acc.1 e).map
              (fun r => (r.1, acc.2 + if r.2 then 1 else 0)))
            (s, c) = some (s', c + es.length) := by
      intro es
      induction es with
      | nil =>
        intro s c _
        exact ⟨s, by simp⟩
      | cons e es ih =>
        intro s c hs
        obtain ⟨s1, h1, hm⟩ := RLQ.add_some_true s e hs
        obtain ⟨s', h2⟩ := ih s1 (c + 1) (hm ▸ hs)
        refine ⟨s', ?_⟩
        rw [List.foldlM_cons, h1]
        simpa [Nat.add_assoc, Nat.add_comm 1 es.length] using h2
    obtain ⟨s', h2⟩ := key es s 0 h
    exact ⟨s', by simpa using h2⟩

/-- C10 witness: at capacity (1 entry in a capacity-1 queue), `add` still
returns `True` and `add_batch` reports both entries added. -/
theorem c10_add_returns_true_witness :
    (∃ s', RLQ.add { RLQ.init Nat 120 60 1 with queue := [5] } 6 =
      some (s', true)) ∧
    (∃ s', RLQ.add_batch { RLQ.init Nat 120 60 1 with queue := [5] } [6, 7] =
      some (s', 2)) :=
  c10_add_returns_true Nat _ 6 [6, 7] (by decide)

/-- Effect of a sequence of `track_request` calls. -/
theorem foldl_track_request : ∀ (ts : List ℚ) (s : RLQ α),
    ts.foldl (fun s t => RLQ.track_request t s) s =
      { s with request_timestamps := s.request_timestamps ++ ts,
               total_sent := s.total_sent + ts.length } := by
  intro ts
  induction ts with
  | nil => intro s; simp
  | cons t ts ih =>
    intro s
    rw [List.foldl_cons, ih]
    simp [RLQ.track_request, Nat.add_assoc, Nat.add_comm 1 ts.length]

/-- C3 counterexample: with `rate_limit = 0` and no tracked requests,
`is_rate_limited` reads `request_timestamps[0]` from an empty deque, so
`get_queued_entries` on a non-empty queue raises `IndexError` instead of
returning the empty list. -/
theorem c3_counterexample_zero_limit :
    RLQ.get_queued_entries 0 none
      { RLQ.init Nat 0 60 10 with queue := [5] } = none := by
  rfl

/-- C3 (amended, needing limit `L ≥ 1`): after `L` `track_request` calls whose
timestamps all lie within the trailing `W` seconds of the check time,
`get_queued_entries` on a non-empty queue returns the empty list and removes
nothing; it keeps doing so at any time before the oldest timestamp plus `W`;
and once more than `W` seconds have elapsed since the oldest timestamp, it
returns entries again, the rate-limited flag having cleared itself on that
check without any external reset call. -/
theorem c3_rate_limit_gating (α : Type) (W : ℚ) (L M : Nat)
    (es : List α) (hes : es ≠ [])
    (t0 : ℚ) (tr : List ℚ) (hlen : (t0 :: tr).length = L)
    (now mid later : ℚ)
    (hwin : ∀ t ∈ t0 :: tr, now - W ≤ t)
    (hmid : mid < t0 + W)
    (hlater : t0 + W < later) :
    ∃ s2 s4 popped,
      RLQ.get_queued_entries now none
        ((t0 :: tr).foldl (fun s t => RLQ.track_request t s)
          { RLQ.init α L W M with queue := es }) = some (s2, []) ∧
      s2.queue = es ∧
      RLQ.get_queued_entries mid none s2 = some (s2, []) ∧
      RLQ.get_queued_entries later none s2 = some (s4, popped) ∧
      popped ≠ [] ∧
      s4.rate_limited = false := by
  have hesE : es.isEmpty = false := by
    cases es with
    | nil => exact absurd rfl hes
    | cons a l => rfl
  have hs1 : (t0 :: tr).foldl (fun s t => RLQ.track_request t s)
      { RLQ.init α L W M with queue := es } =
      { queue := es, rate_limit := L, rate_window := W, max_queue_size := M,
        rate_limited := false, rate_limit_reset := none,
        request_timestamps := t0 :: tr, total_queued := 0, total_dropped := 0,
        total_sent := (t0 :: tr).length } := by
    rw [foldl_track_request]
    simp [RLQ.init]
  have ht0 : now - W ≤ t0 := hwin t0 (List.mem_cons_self t0 tr)
  have ht0' : ¬ t0 < now - W := not_lt.mpr ht0
  have hrem : max 0 (t0 + W - now) = t0 + W - now :=
    max_eq_right (by linarith)
  have hreset : now + max 0 (t0 + W - now) = t0 + W := by
    rw [hrem]
    ring
  have hrl1 : RLQ.is_rate_limited now
      { queue := es, rate_limit := L, rate_window := W, max_queue_size := M,
        rate_limited := false, rate_limit_reset := none,
        request_timestamps := t0 :: tr, total_queued := 0, total_dropped := 0,
        total_sent := (t0 :: tr).length } =
      some ({ queue := es, rate_limit := L, rate_window := W,
              max_queue_size := M, rate_limited := true,
              rate_limit_reset := some (t0 + W),
              request_timestamps := t0 :: tr, total_queued := 0,
              total_dropped := 0, total_sent := (t0 :: tr).length },
            true, max 0 (t0 + W - now)) := by
    have hdw : (t0 :: tr).dropWhile (fun t => decide (t < now - W)) = t0 :: tr := by
      rw [List.dropWhile_cons, if_neg (by simp [ht0'])]
    unfold RLQ.is_rate_limited
    rw [if_neg (by simp)]
    dsimp only
    rw [hdw, if_pos (le_of_eq hlen.symm)]
    dsimp only
    rw [hreset]
  have hget1 : RLQ.get_queued_entries now none
      { queue := es, rate_limit := L, rate_window := W, max_queue_size := M,
        rate_limited := false, rate_limit_reset := none,
        request_timestamps := t0 :: tr, total_queued := 0, total_dropped := 0,
        total_sent := (t0 :: tr).length } =
      some ({ queue := es, rate_limit := L, rate_window := W,
              max_queue_size := M, rate_limited := true,
              rate_limit_reset := some (t0 + W),
              request_timestamps := t0 :: tr, total_queued := 0,
              total_dropped := 0, total_sent := (t0 :: tr).length }, []) := by
    unfold RLQ.get_queued_entries
    rw [if_neg (by simp [hesE]), hrl1]
    rfl
  have hrl2 : RLQ.is_rate_limited mid
      { queue := es, rate_limit := L, rate_window := W, max_queue_size := M,
        rate_limited := true, rate_limit_reset := some (t0 + W),
        request_timestamps := t0 :: tr, total_queued := 0, total_dropped := 0,
        total_sent := (t0 :: tr).length } =
      some ({ queue := es, rate_limit := L, rate_window := W,
              max_queue_size := M, rate_limited := true,
              rate_limit_reset := some (t0 + W),
              request_timestamps := t0 :: tr, total_queued := 0,
              total_dropped := 0, total_sent := (t0 :: tr).length },
            true, (t0 + W) - mid) := by
    unfold RLQ.is_rate_limited
    rw [if_pos (by simp)]
    simp [hmid]
  have hget2 : RLQ.get_queued_entries mid none
      { queue := es, rate_limit := L, rate_window := W, max_queue_size := M,
        rate_limited := true, rate_limit_reset := some (t0 + W),
        request_timestamps := t0 :: tr, total_queued := 0, total_dropped := 0,
        total_sent := (t0 :: tr).length } =
      some ({ queue := es, rate_limit := L, rate_window := W,
              max_queue_size := M, rate_limited := true,
              rate_limit_reset := some (t0 + W),
              request_timestamps := t0 :: tr, total_queued := 0,
              total_dropped := 0, total_sent := (t0 :: tr).length }, []) := by
    unfold RLQ.get_queued_entries
    rw [if_neg (by simp [hesE]), hrl2]
    rfl
  have hrl3 : RLQ.is_rate_limited later
      { queue := es, rate_limit := L, rate_window := W, max_queue_size := M,
        rate_limited := true, rate_limit_reset := some (t0 + W),
        request_timestamps := t0 :: tr, total_queued := 0, total_dropped := 0,
        total_sent := (t0 :: tr).length } =
      some ({ queue := es, rate_limit := L, rate_window := W,
              max_queue_size := M, rate_limited := false,
              rate_limit_reset := none,
              request_timestamps := t0 :: tr, total_queued := 0,
              total_dropped := 0, total_sent := (t0 :: tr).length },
            false, 0) := by
    unfold RLQ.is_rate_limited
    rw [if_pos (by simp)]
    simp [not_lt.mpr (le_of_lt hlater)]
  have hmc : 1 ≤ max 1 (L / 2) := le_max_left 1 (L / 2)
  have hpop : es.take (max 1 (L / 2)) ≠ [] := by
    cases es with
    | nil => exact absurd rfl hes
    | cons e0 etl =>
      cases hmax : max 1 (L / 2) with
      | zero =>
        rw [hmax] at hmc
        omega
      | succ k =>
        simp [List.take_succ_cons]
  have hget3 : RLQ.get_queued_entries later none
      { queue := es, rate_limit := L, rate_window := W, max_queue_size := M,
        rate_limited := true, rate_limit_reset := some (t0 + W),
        request_timestamps := t0 :: tr, total_queued := 0, total_dropped := 0,
        total_sent := (t0 :: tr).length } =
      some ({ queue := es.drop (max 1 (L / 2)), rate_limit := L,
              rate_window := W, max_queue_size := M, rate_limited := false,
              rate_limit_reset := none,
              request_timestamps := t0 :: tr, total_queued := 0,
              total_dropped := 0, total_sent := (t0 :: tr).length },
            es.take (max 1 (L / 2))) := by
    unfold RLQ.get_queued_entries
    rw [if_neg (by simp [hesE]), hrl3]
    rfl
  refine ⟨{ queue := es, rate_limit := L, rate_window := W, max_queue_size := M,
            rate_limited := true, rate_limit_reset := some (t0 + W),
            request_timestamps := t0 :: tr, total_queued := 0,
            total_dropped := 0, total_sent := (t0 :: tr).length },
          { queue := es.drop (max 1 (L / 2)), rate_limit := L,
            rate_window := W, max_queue_size := M, rate_limited := false,
            rate_limit_reset := none, request_timestamps := t0 :: tr,
            total_queued := 0, total_dropped := 0,
            total_sent := (t0 :: tr).length },
          es.take (max 1 (L / 2)), ?_, rfl, hget2, hget3, hpop, rfl⟩
  rw [hs1]
  exact hget1

/-- C3 witness: limit 2, window 60: two tracked requests at 0 and 10, checks
at 30 and 50 return nothing; at 61 (more than 60 past the oldest) entries
flow again. -/
theorem c3_rate_limit_gating_witness :
    ∃ s2 s4 popped,
      RLQ.get_queued_entries 30 none
        (([0, 10] : List ℚ).foldl (fun s t => RLQ.track_request t s)
          { RLQ.init Nat 2 60 10 with queue := [5] }) = some (s2, []) ∧
      s2.queue = [5] ∧
      RLQ.get_queued_entries 50 none s2 = some (s2, []) ∧
      RLQ.get_queued_entries 61 none s2 = some (s4, popped) ∧
      popped ≠ [] ∧
      s4.rate_limited = false :=
  c3_rate_limit_gating Nat 60 2 10 [5] (by decide) 0 [10] (by decide)
    30 50 61 (by intro t ht; fin_cases ht <;> norm_num) (by norm_num)
    (by norm_num)

/-- C9: `load_state` never raises — every deserialization failure (an
unreadable pickle, a non-dict state value, a non-dict `processed_lines`, a
non-string key) is caught by the catch-all handler and resets the in-memory
state to empty maps, so startup proceeds; a missing state file leaves the
constructor's empty maps in place.  (In this embedding `load_state` is a
total function; the raising paths inside the `try` are the `error` results of
`tryParseState`, all mapped to the empty state.) -/
theorem c9_load_state_never_fatal (norm : String → String) (a : Artifact)
    (h : a = Artifact.missing ∨ a = Artifact.corrupt ∨
         ∃ v, a = Artifact.value v ∧ tryParseState v = Except.error ()) :
    load_state norm emptyLoadedState a = emptyLoadedState := by
  rcases h with rfl | rfl | ⟨v, rfl, hv⟩
  · rfl
  · rfl
  · unfold load_state
    dsimp only
    rw [hv]

/-- C9 witness: a pickle whose top-level value is the integer 3 (not a dict)
fails to deserialize and yields the empty state. -/
theorem c9_load_state_never_fatal_witness :
    load_state id emptyLoadedState (Artifact.value (PVal.pint 3)) =
      emptyLoadedState :=
  c9_load_state_never_fatal id _ (Or.inr (Or.inr ⟨PVal.pint 3, rfl, rfl⟩))

/-! ## C4: the 429 path of `send_logs_to_clio` -/

/-- C4 failing input: the `i`-th of 26 pairwise distinct events. -/
def c4Event (i : Nat) : LogEvent :=
  { timestamp := "2025-06-01T00:00:00"
    hostname := "DC01"
    username := "u"
    command := String.mk ('c' :: List.replicate i 'x')
    notes := ""
    filename := ""
    status := ""
    internal_ip := ""
    external_ip := "" }

/-- C4 failing input: a list of 26 events (two delivery batches of 25 + 1). -/
def c4Logs : List LogEvent := (List.range 26).map c4Event

/-- C4 failing input: the server answers every post with
`429 Retry-After: 30`. -/
def c4Oracle : Nat → Resp :=
  fun _ => Resp.rateLimited (some (RetryAfter.seconds 30))

/-- The run of `send_logs_to_clio` on the C4 failing input at time 1000 with
a fresh queue. -/
def c4Run : Option (Bool × RLQ LogEvent × Nat) :=
  send_logs_to_clio "2025-06-01T00:00:01" 1000 c4Oracle c4Logs
    (RLQ.init LogEvent 120 60 10000) 0

/-- The queue state after the C4 run. -/
def c4QueueAfter : RLQ LogEvent :=
  { queue := c4Logs.take 25
    rate_limit := 120
    rate_window := 60
    max_queue_size := 10000
    rate_limited := true
    rate_limit_reset := some (1000 + ((30 : Nat) : ℚ))
    request_timestamps := []
    total_queued := 25
    total_dropped := 0
    total_sent := 0 }

/-- C4: a 429 on the very first send aborts delivery and re-queues only
`batch[batch.index(entry):]` of the *current* 25-event batch — the 26th
event, which was never sent, is not added to the retry queue and is lost,
contradicting "every not-yet-successfully-sent event of that list is added to
the retry queue, none dropped".  The Retry-After half of the claim holds:
`is_rate_limited` immediately afterwards reports limited with 30 seconds
remaining. -/
theorem c4_429_drops_events_beyond_current_batch :
    c4Run = some (false, c4QueueAfter, 1) ∧
    c4Logs.length = 26 ∧
    c4QueueAfter.queue.length = 25 ∧
    c4QueueAfter.queue.contains (c4Event 25) = false ∧
    (c4Event 25) ∈ c4Logs ∧
    (RLQ.is_rate_limited 1000 c4QueueAfter).map (fun r => (r.2.1, r.2.2)) =
      some (true, 30) := by
  refine ⟨by rfl, by rfl, by rfl, by rfl, ?_, ?_⟩
  · show c4Event 25 ∈ c4Logs
    have h25 : c4Logs.contains (c4Event 25) = true := by rfl
    simpa using h25
  · unfold RLQ.is_rate_limited c4QueueAfter
    rw [if_pos (by simp)]
    dsimp only
    rw [if_pos (by norm_num)]
    norm_num [Option.map]

end Clio
